import Mathlib

/-!
Verification development for the pareto-ai-tools repository: three
workspace-bounded filesystem commands (src/bin/cd-vs-local.js,
src/bin/mv-vs-local.js, src/bin/rm-vs-local.js).

Shallow embedding conventions:

* JavaScript strings are modelled as lists of characters (JStr).
* A fully resolved absolute POSIX path is modelled as its list of
  segments (FPath); the filesystem root is the empty list.  The
  platform separator is the POSIX slash, and path.dirname on a
  resolved path is List.dropLast.  path.resolve applied to a path
  that is already resolved is the identity, so command arguments are
  taken as already-resolved segment lists.
* The filesystem is a finite tree (FNode).  A directory carries a
  readable flag: reading the entries of an unreadable directory
  models a readdirSync that throws (permission denied).  statSync and
  existsSync are modelled through lookup, which never needs to list a
  directory.
* Each command entry point (the main function of each script) is a
  pure function from (filesystem, current directory, parsed flags and
  resolved positional paths) to a Result carrying the process exit
  code, the final filesystem, the ordered list of mutating filesystem
  calls, the stdout lines and the stderr reports.  process.exit is
  modelled by returning early with the corresponding code; an
  uncaught exception terminates the node process with exit code 1 and
  is modelled by the uncaughtException stderr report.
* Argument-string parsing, help text and the human-readable console
  formatting are glue the specification explicitly places out of
  scope (spec section 1); stdout text is therefore modelled faithfully
  only for cd-vs-local, whose CHANGE_DIR hand-off line is the one
  stdout line any claim constrains.  stderr reports are modelled as
  one event per console.error block of the source, keeping which
  error was reported and for which path.
-/

namespace VsLocal

/-- A JavaScript string, as a list of characters. -/
abbrev JStr := List Char

/-- Embeds a Lean string literal as a JStr. -/
def str (s : String) : JStr := s.data

/-- A fully resolved absolute path, as its list of segments.  The
filesystem root is the empty list. -/
abbrev FPath := List JStr

/-- The platform path separator (path.sep) on POSIX. -/
def pathSep : Char := '/'

/-- A node of the filesystem tree.  A directory stores its entries in
order together with a flag saying whether readdirSync on it succeeds. -/
inductive FNode where
  | file : FNode
  | dir (readable : Bool) (entries : List (JStr × FNode)) : FNode

instance : Inhabited FNode := ⟨.file⟩

/-- True iff the node is a directory (stats.isDirectory()). -/
def isDirNode : FNode → Bool
  | .file => false
  | .dir _ _ => true

mutual

/-- Walks the tree along a path.  lookup fs p = some n iff the path
exists and denotes node n; existsSync is (lookup fs p).isSome and
statSync().isDirectory() is isDirNode of the result. -/
def lookup : FNode → FPath → Option FNode
  | n, [] => some n
  | .file, _ :: _ => none
  | .dir _ es, s :: ss => lookupEntries es s ss

/-- Helper of lookup: finds the first entry with the given name and
continues along the rest of the path. -/
def lookupEntries : List (JStr × FNode) → JStr → FPath → Option FNode
  | [], _, _ => none
  | (n, c) :: rest, s, ss => if n == s then lookup c ss else lookupEntries rest s ss

end

/-- Models fs.readdirSync: lists the entries of a directory, failing
(None, an exception in the source) when the path is missing, is a
file, or is an unreadable directory. -/
def readdir (fs : FNode) (p : FPath) : Option (List (JStr × FNode)) :=
  match lookup fs p with
  | some (.dir true es) => some es
  | _ => none

/-- The workspace-marker test of findWorkspaceRoot (cd-vs-local.js
lines 18-26, identical in the other two scripts): the directory
contains an entry named .vscode, .git or package.json (existsSync,
which ignores the entry type), or an entry whose name ends with
.code-workspace (readdirSync().find(file.endsWith(...))). -/
def hasMarkerEntries (es : List (JStr × FNode)) : Bool :=
  es.any (fun e =>
    e.1 == str ".vscode" || e.1 == str ".git" || e.1 == str "package.json" ||
    (str ".code-workspace").isSuffixOf e.1)

/-- The upward walk of findWorkspaceRoot, structured over the reversed
segment list so that dropping the deepest segment (path.dirname) is
structural recursion.  The loop runs only while the current path is
not the filesystem root; readdirSync is called before the marker test,
so a listing failure aborts the walk with an exception (error). -/
def findRootUp (fs : FNode) : FPath → Except Unit (Option FPath)
  | [] => .ok none
  | s :: rest =>
    match readdir fs ((s :: rest).reverse) with
    | none => .error ()
    | some es =>
      if hasMarkerEntries es then .ok (some ((s :: rest).reverse))
      else findRootUp fs rest

/-- findWorkspaceRoot (cd-vs-local.js lines 13-34, identical in
mv-vs-local.js and rm-vs-local.js): walks from the starting directory
upward; returns the first directory containing a marker, none (null)
when the walk reaches the filesystem root without a match, and error
when a readdirSync on an examined directory throws. -/
def findWorkspaceRoot (fs : FNode) (d : FPath) : Except Unit (Option FPath) :=
  findRootUp fs d.reverse

/-- Helper of examined, over the reversed starting path. -/
def examinedUp (fs : FNode) : FPath → List FPath
  | [] => []
  | s :: rest =>
    (s :: rest).reverse ::
      (match readdir fs ((s :: rest).reverse) with
       | none => []
       | some es => if hasMarkerEntries es then [] else examinedUp fs rest)

/-- The ancestors of the starting directory on which findWorkspaceRoot
calls readdirSync, in walk order: the walk stops at the first marker
hit, at the first listing failure, or when the filesystem root is
reached (the root itself is never examined). -/
def examined (fs : FNode) (d : FPath) : List FPath := examinedUp fs d.reverse

/-- isWithinWorkspace (cd-vs-local.js lines 36-41, identical in the
other two scripts) applied to already-resolved path strings, on which
path.resolve is the identity: the target string starts with the
workspace string followed by path.sep, or equals it. -/
def isWithinWorkspace (targetPath workspaceRoot : JStr) : Bool :=
  (workspaceRoot ++ [pathSep]).isPrefixOf targetPath || targetPath == workspaceRoot

/-- Modelled from the specification wording of the Containment Checker
(spec section 4.2): the candidate equals the root, or the candidate
begins with the root immediately followed by the platform separator.
Used to compare the code checker against the specified one. -/
def specWithin (candidate root : JStr) : Prop :=
  candidate = root ∨ (root ++ [pathSep]) <+: candidate

/-- Modelled from the claim wording for C1: the marker test described
by the specification contract, which requires .vscode and .git to be
directories and package.json and the .code-workspace glob hits to be
files.  Used only to compare against the code marker test. -/
def claimMarkerEntries (es : List (JStr × FNode)) : Bool :=
  es.any (fun e =>
    (e.1 == str ".vscode" && isDirNode e.2) ||
    (e.1 == str ".git" && isDirNode e.2) ||
    (e.1 == str "package.json" && !(isDirNode e.2)) ||
    ((str ".code-workspace").isSuffixOf e.1 && !(isDirNode e.2)))

/-- Renders a resolved segment path as its absolute string: the root
renders as the bare separator, otherwise each segment is preceded by
the separator. -/
def renderAbs (p : FPath) : JStr :=
  match p with
  | [] => [pathSep]
  | _ => (p.map (fun s => pathSep :: s)).flatten

/-- Joins segments with the separator (used for relative paths). -/
def joinSegs : FPath → JStr
  | [] => []
  | [s] => s
  | s :: s2 :: rest => s ++ pathSep :: joinSegs (s2 :: rest)

/-- Length of the longest common segment prefix of two paths. -/
def commonLen : FPath → FPath → Nat
  | [], _ => 0
  | _, [] => 0
  | x :: xs, y :: ys => if x == y then commonLen xs ys + 1 else 0

/-- Models path.relative on resolved paths: climb out of the
non-shared part of the origin, then descend into the target. -/
def relSegs (fromP toP : FPath) : FPath :=
  List.replicate (fromP.length - commonLen fromP toP) (str "..") ++
    toP.drop (commonLen fromP toP)

/-- path.relative rendered as a string (empty when the paths agree). -/
def relPath (fromP toP : FPath) : JStr := joinSegs (relSegs fromP toP)

mutual

/-- Replaces (some n) or deletes (none) the filesystem entry at a
path; on a missing path nothing changes, except that replacing a
missing final segment under an existing directory inserts the entry
(used by rename for a fresh destination). -/
def replaceAt : FNode → FPath → Option FNode → FNode
  | n, [], r => r.getD n
  | .file, _ :: _, _ => .file
  | .dir rd es, s :: ss, r => .dir rd (editEntries es s ss r)

/-- Helper of replaceAt over an entry list: edits the first entry
carrying the given name. -/
def editEntries : List (JStr × FNode) → JStr → FPath → Option FNode → List (JStr × FNode)
  | [], s, [], some n2 => [(s, n2)]
  | [], _, _, _ => []
  | (n, c) :: rest, s, ss, r =>
    if n == s then
      match ss, r with
      | [], none => rest
      | [], some n2 => (n, n2) :: rest
      | s2 :: ss2, r2 => (n, replaceAt c (s2 :: ss2) r2) :: rest
    else (n, c) :: editEntries rest s ss r

end

mutual

/-- Well-formed filesystem: entry names are distinct in every
directory (as on a real filesystem). -/
def wfNode : FNode → Bool
  | .file => true
  | .dir _ es => keysNodup es && wfEntries es

/-- Helper of wfNode: every entry subtree is well-formed. -/
def wfEntries : List (JStr × FNode) → Bool
  | [] => true
  | (_, c) :: rest => wfNode c && wfEntries rest

/-- Helper of wfNode: entry names are pairwise distinct. -/
def keysNodup : List (JStr × FNode) → Bool
  | [] => true
  | (n, _) :: rest => !(rest.any (fun e => e.1 == n)) && keysNodup rest

end

/-- One mutating filesystem call of the source, in the order issued. -/
inductive MEv where
  | unlinkSync (p : FPath)
  | rmdirSync (p : FPath)
  | mkdirSync (p : FPath)
  | renameSync (src dst : FPath)
deriving DecidableEq

/-- The path a mutation event acts on (the source for a rename). -/
def evPath : MEv → FPath
  | .unlinkSync p => p
  | .rmdirSync p => p
  | .mkdirSync p => p
  | .renameSync src _ => src

/-- One stderr report, one per console.error block of the source. -/
inductive ErrEv where
  | rootNotFound
  | missingOperand
  | targetMissing (p : FPath)
  | notADirectory (p : FPath)
  | isADirectory (p : FPath)
  | outsideWorkspace (p : FPath)
  | sourceMissing (p : FPath)
  | removeFailed (p : FPath)
  | moveFailed (src dst : FPath)
  | uncaughtException
deriving DecidableEq

mutual

/-- removeRecursively (rm-vs-local.js lines 43-55) on the node found
at the given path: a file is unlinked; a directory is first listed
(failing like readdirSync when unreadable), its children are removed
in order depth-first, then the emptied directory is removed with
rmdirSync.  Returns the surviving state of the entry (none when fully
removed), the mutation events issued, and whether the call completed
without throwing; on a failure the children already processed stay
removed, as after a thrown exception in the source. -/
def removeRecursively : FPath → FNode → Option FNode × List MEv × Bool
  | p, .file => (none, [.unlinkSync p], true)
  | p, .dir rd es =>
    if rd then
      match removeChildren p es with
      | (_, evs, true) => (none, evs ++ [.rmdirSync p], true)
      | (rem, evs, false) => (some (.dir rd rem), evs, false)
    else (some (.dir rd es), [], false)

/-- Helper of removeRecursively over the listed children: removes them
in order, stopping at (and keeping) the first child whose removal
throws, together with the children not yet reached. -/
def removeChildren : FPath → List (JStr × FNode) → List (JStr × FNode) × List MEv × Bool
  | _, [] => ([], [], true)
  | p, (n, c) :: rest =>
    match removeRecursively (p ++ [n]) c with
    | (none, evs, true) =>
      match removeChildren p rest with
      | (rem, evs2, ok) => (rem, evs ++ evs2, ok)
    | (res, evs, _) => ((n, res.getD c) :: rest, evs, false)

end

/-- A chain of fresh empty directories along the given segments. -/
def mkChain : FPath → FNode
  | [] => .dir true []
  | s :: ss => .dir true [(s, mkChain ss)]

mutual

/-- Models fs.mkdirSync(p, recursive: true): creates every missing
directory along the path; fails (an exception in the source) when a
non-directory blocks the path. -/
def mkdirp : FNode → FPath → Option FNode
  | .file, _ => none
  | .dir rd es, [] => some (.dir rd es)
  | .dir rd es, s :: ss => (mkdirpEntries es s ss).map (fun es2 => .dir rd es2)

/-- Helper of mkdirp over an entry list: descends into an existing
entry of the given name or appends a fresh directory chain. -/
def mkdirpEntries : List (JStr × FNode) → JStr → FPath → Option (List (JStr × FNode))
  | [], s, ss => some [(s, mkChain ss)]
  | (n, c) :: rest, s, ss =>
    if n == s then (mkdirp c ss).map (fun c2 => (n, c2) :: rest)
    else (mkdirpEntries rest s ss).map (fun rest2 => (n, c) :: rest2)

end

/-- Models fs.renameSync(src, dst) on the tree: fails (an exception in
the source) when the source is missing, when the source is a proper
ancestor of the destination, when the destination parent is not an
existing directory, or when an existing destination cannot be
replaced (non-empty directory, or kind mismatch); otherwise the
source subtree is detached and reattached at the destination. -/
def rename (fs : FNode) (src dst : FPath) : Option FNode :=
  match lookup fs src with
  | none => none
  | some n =>
    if src = dst then some fs
    else if src.isPrefixOf dst then none
    else
      match lookup fs dst.dropLast with
      | some (.dir _ _) =>
        match lookup fs dst with
        | some (.dir _ (_ :: _)) => none
        | some (.dir _ []) =>
          if isDirNode n then some (replaceAt (replaceAt fs src none) dst (some n)) else none
        | some .file =>
          if isDirNode n then none else some (replaceAt (replaceAt fs src none) dst (some n))
        | none => some (replaceAt (replaceAt fs src none) dst (some n))
      | _ => none

/-- The outcome of one command invocation: process exit code, final
filesystem, mutating calls in order, stdout lines, stderr reports. -/
structure Result where
  exitCode : Nat
  fs : FNode
  events : List MEv
  stdout : List JStr
  stderr : List ErrEv

/-- Parsed invocation of cd-vs-local: mode flags and the resolved
target directory argument, when one was given. -/
structure CdArgs where
  help : Bool
  showRoot : Bool
  check : Bool
  target : Option FPath

/-- Parsed invocation of mv-vs-local: mode flags and the resolved
non-flag path arguments in order. -/
structure MvArgs where
  help : Bool
  showRoot : Bool
  check : Bool
  paths : List FPath

/-- Parsed invocation of rm-vs-local: mode flags and the resolved
target paths in order.  force only suppresses the confirmation
display, which is stdout glue. -/
structure RmArgs where
  help : Bool
  showRoot : Bool
  check : Bool
  recursive : Bool
  force : Bool
  targets : List FPath

/-- Renders a workspace-relative path, or the root placeholder. -/
def wsDisplay (l : JStr) : JStr := if l.isEmpty then str "(root)" else l

/-- main of cd-vs-local.js (lines 43-130).  Branch order as in the
source: help, workspace-root lookup, show-root, missing operand,
check mode, existence, directory test, containment, success report.
The success report ends with the CHANGE_DIR hand-off line.  Help text
lines are out-of-scope glue and are left out of the modelled stdout;
no mutating call exists anywhere in this command. -/
def cdMain (fs : FNode) (cwd : FPath) (args : CdArgs) : Result :=
  if args.help then ⟨0, fs, [], [], []⟩
  else
    match findWorkspaceRoot fs cwd with
    | .error _ => ⟨1, fs, [], [], [.uncaughtException]⟩
    | .ok none => ⟨1, fs, [], [], [.rootNotFound]⟩
    | .ok (some workspaceRoot) =>
      if args.showRoot then
        ⟨0, fs, [], [str "📁 Workspace root: " ++ renderAbs workspaceRoot], []⟩
      else
        match args.target with
        | none => ⟨1, fs, [], [], [.missingOperand]⟩
        | some t =>
          if args.check then
            let w := isWithinWorkspace (renderAbs t) (renderAbs workspaceRoot)
            ⟨if w then 0 else 1, fs, [],
              [str "Path: " ++ renderAbs t,
               str "Workspace: " ++ renderAbs workspaceRoot,
               str "Within workspace: " ++ (if w then str "✅ Yes" else str "❌ No")], []⟩
          else
            match lookup fs t with
            | none => ⟨1, fs, [], [], [.targetMissing t]⟩
            | some n =>
              if !(isDirNode n) then ⟨1, fs, [], [], [.notADirectory t]⟩
              else if !(isWithinWorkspace (renderAbs t) (renderAbs workspaceRoot)) then
                ⟨1, fs, [], [], [.outsideWorkspace t]⟩
              else
                ⟨0, fs, [],
                  [str "✅ cd " ++ relPath cwd t,
                   str "📁 " ++ renderAbs t,
                   str "🏠 Workspace: " ++ wsDisplay (relPath workspaceRoot t),
                   str "CHANGE_DIR=" ++ renderAbs t], []⟩

/-- main of mv-vs-local.js (lines 43-151).  Branch order as in the
source: help, root lookup, show-root, operand count, check mode,
source existence, source containment, destination containment, then
the mutation phase: mkdirSync of the destination parent when missing,
followed by renameSync; a rename failure is caught and exits 1.
stdout reporting lines are out-of-scope glue and left out. -/
def mvMain (fs : FNode) (cwd : FPath) (args : MvArgs) : Result :=
  if args.help then ⟨0, fs, [], [], []⟩
  else
    match findWorkspaceRoot fs cwd with
    | .error _ => ⟨1, fs, [], [], [.uncaughtException]⟩
    | .ok none => ⟨1, fs, [], [], [.rootNotFound]⟩
    | .ok (some workspaceRoot) =>
      if args.showRoot then ⟨0, fs, [], [], []⟩
      else
        match args.paths with
        | [sourceP, destP] =>
          if args.check then
            let sw := isWithinWorkspace (renderAbs sourceP) (renderAbs workspaceRoot)
            let dw := isWithinWorkspace (renderAbs destP) (renderAbs workspaceRoot)
            ⟨if sw && dw then 0 else 1, fs, [], [], []⟩
          else if (lookup fs sourceP).isNone then ⟨1, fs, [], [], [.sourceMissing sourceP]⟩
          else if !(isWithinWorkspace (renderAbs sourceP) (renderAbs workspaceRoot)) then
            ⟨1, fs, [], [], [.outsideWorkspace sourceP]⟩
          else if !(isWithinWorkspace (renderAbs destP) (renderAbs workspaceRoot)) then
            ⟨1, fs, [], [], [.outsideWorkspace destP]⟩
          else
            let destDir := destP.dropLast
            if (lookup fs destDir).isNone then
              match mkdirp fs destDir with
              | none => ⟨1, fs, [], [], [.uncaughtException]⟩
              | some fs1 =>
                match rename fs1 sourceP destP with
                | none => ⟨1, fs1, [.mkdirSync destDir], [], [.moveFailed sourceP destP]⟩
                | some fs2 => ⟨0, fs2, [.mkdirSync destDir, .renameSync sourceP destP], [], []⟩
            else
              match rename fs sourceP destP with
              | none => ⟨1, fs, [], [], [.moveFailed sourceP destP]⟩
              | some fs2 => ⟨0, fs2, [.renameSync sourceP destP], [], []⟩
        | _ => ⟨1, fs, [], [], [.missingOperand]⟩

/-- The validation loop of rm-vs-local.js main (lines 127-148), run
over every target before any removal: per target, containment, then
existence, then the directory-without-recursive guard; the first
violation is reported and the process exits 1. -/
def validateRm (fs : FNode) (workspaceRoot : FPath) (recursive : Bool) :
    List FPath → Option ErrEv
  | [] => none
  | t :: rest =>
    if !(isWithinWorkspace (renderAbs t) (renderAbs workspaceRoot)) then
      some (.outsideWorkspace t)
    else
      match lookup fs t with
      | none => some (.targetMissing t)
      | some n =>
        if isDirNode n && !recursive then some (.isADirectory t)
        else validateRm fs workspaceRoot recursive rest

/-- The outcome of the rm mutation loop. -/
structure MutOut where
  fs : FNode
  events : List MEv
  errors : List ErrEv
  removedCount : Nat

/-- The mutation loop of rm-vs-local.js main (lines 165-183): per
target, statSync, then recursive directory removal or unlinkSync; a
failure on one target is caught, reported, and the loop continues
with the remaining targets. -/
def rmMutate : FNode → List FPath → MutOut
  | fs, [] => ⟨fs, [], [], 0⟩
  | fs, t :: rest =>
    match lookup fs t with
    | none =>
      let r := rmMutate fs rest
      ⟨r.fs, r.events, .removeFailed t :: r.errors, r.removedCount⟩
    | some n =>
      if isDirNode n then
        match removeRecursively t n with
        | (res, evs, ok) =>
          let r := rmMutate (replaceAt fs t res) rest
          ⟨r.fs, evs ++ r.events,
            (if ok then r.errors else .removeFailed t :: r.errors),
            r.removedCount + (if ok then 1 else 0)⟩
      else
        let r := rmMutate (replaceAt fs t none) rest
        ⟨r.fs, .unlinkSync t :: r.events, r.errors, r.removedCount + 1⟩

/-- main of rm-vs-local.js (lines 57-192).  Branch order as in the
source: help, root lookup, show-root, empty target list, check mode,
the validate-everything gate, the confirmation display (stdout glue,
display only, it never blocks), then the mutation loop; after the
loop the function returns normally, so the process exit code is 0
even when individual removals failed. -/
def rmMain (fs : FNode) (cwd : FPath) (args : RmArgs) : Result :=
  if args.help then ⟨0, fs, [], [], []⟩
  else
    match findWorkspaceRoot fs cwd with
    | .error _ => ⟨1, fs, [], [], [.uncaughtException]⟩
    | .ok none => ⟨1, fs, [], [], [.rootNotFound]⟩
    | .ok (some workspaceRoot) =>
      if args.showRoot then ⟨0, fs, [], [], []⟩
      else if args.targets.isEmpty then ⟨1, fs, [], [], [.missingOperand]⟩
      else if args.check then
        ⟨if args.targets.all
            (fun t => isWithinWorkspace (renderAbs t) (renderAbs workspaceRoot)) then 0
          else 1, fs, [], [], []⟩
      else
        match validateRm fs workspaceRoot args.recursive args.targets with
        | some e => ⟨1, fs, [], [], [e]⟩
        | none =>
          let r := rmMutate fs args.targets
          ⟨0, r.fs, r.events, [], r.errors⟩

/-- Unfolding equation of findWorkspaceRoot in the shape of the source
loop: stop with none at the filesystem root, otherwise list the
current directory (propagating a listing failure), return the current
directory on a marker hit, and recurse into the parent otherwise. -/
lemma findWorkspaceRoot_eq (fs : FNode) (d : FPath) :
    findWorkspaceRoot fs d =
      if d = [] then .ok none
      else
        match readdir fs d with
        | none => .error ()
        | some es =>
          if hasMarkerEntries es then .ok (some d)
          else findWorkspaceRoot fs d.dropLast := by
  rcases h : d.reverse with _ | ⟨s, rest⟩
  · have : d = [] := by simpa using congrArg List.reverse h
    subst this
    simp [findWorkspaceRoot, findRootUp]
  · have hd : d = rest.reverse ++ [s] := by
      have := congrArg List.reverse h
      simpa using this
    subst hd
    rw [if_neg (by simp)]
    rcases hr : readdir fs (rest.reverse ++ [s]) with _ | es <;>
      simp [findWorkspaceRoot, findRootUp, hr, List.dropLast_concat]

/-- A prefix of a list with one appended element is the whole list or
a prefix of the shorter list. -/
lemma prefix_concat_cases {α : Type} {q l : List α} {a : α}
    (h : q <+: l ++ [a]) : q = l ++ [a] ∨ q <+: l := by
  rcases Nat.lt_or_ge q.length (l ++ [a]).length with hlt | hge
  · right
    have hq : q = (l ++ [a]).take q.length := List.prefix_iff_eq_take.mp h
    have hle : q.length ≤ l.length := by
      simp only [List.length_append, List.length_singleton] at hlt
      omega
    rw [List.take_append_of_le_length hle] at hq
    exact hq ▸ List.take_prefix _ _
  · left
    exact h.eq_of_length (Nat.le_antisymm h.length_le hge)

/-- C1: the starting directory of the counterexample: the filesystem
root contains a directory named .git (a marker even in the claim
wording), and the start directory a, with no marker anywhere else. -/
def fsC1 : FNode := .dir true [(str ".git", .dir true []), (str "a", .dir true [])]

/-- C1, counterexample.  The claim states the locator returns the
absent result only when no ancestor of the start, up to and including
the filesystem root, contains a marker.  In fsC1 the filesystem root
(the empty path, an ancestor of the start directory a) contains a
directory named .git, yet findWorkspaceRoot returns the absent
result: the source loop runs only while currentPath differs from its
dirname, so the filesystem root itself is never examined. -/
theorem c1_counterexample :
    findWorkspaceRoot fsC1 [str "a"] = .ok none ∧
    ([] : FPath) <+: [str "a"] ∧
    readdir fsC1 [] = some [(str ".git", .dir true []), (str "a", .dir true [])] ∧
    claimMarkerEntries [(str ".git", FNode.dir true []), (str "a", FNode.dir true [])] = true :=
  ⟨rfl, ⟨[str "a"], rfl⟩, rfl, rfl⟩

/-- C1, amended.  For every filesystem and starting directory: when
the locator returns the absent result, every ancestor of the start
other than the filesystem root (ancestors are the segment-list
prefixes; the start itself included, the filesystem root excluded)
was listed successfully and contains no entry matching the marker
test of the code (an entry of any type named .vscode, .git or
package.json, or with a name ending in .code-workspace); and when it
returns a root r, r is such a non-root ancestor, its listing contains
a marker, and every strictly nearer ancestor was listed successfully
and contains none. -/
theorem c1_root_locator_characterization (fs : FNode) (d : FPath) :
    (findWorkspaceRoot fs d = .ok none →
      ∀ q : FPath, q <+: d → q ≠ [] →
        ∃ es, readdir fs q = some es ∧ hasMarkerEntries es = false) ∧
    (∀ r, findWorkspaceRoot fs d = .ok (some r) →
      r ≠ [] ∧ r <+: d ∧
      (∃ es, readdir fs r = some es ∧ hasMarkerEntries es = true) ∧
      ∀ q : FPath, q <+: d → r.length < q.length →
        ∃ es, readdir fs q = some es ∧ hasMarkerEntries es = false) := by
  induction d using List.reverseRecOn with
  | nil =>
    rw [findWorkspaceRoot_eq]
    constructor
    · intro _ q hq hqne
      exact absurd (List.prefix_nil.mp hq) hqne
    · intro r hr
      simp at hr
  | append_singleton l a ih =>
    rw [findWorkspaceRoot_eq, if_neg (by simp)]
    rcases hr : readdir fs (l ++ [a]) with _ | es
    · constructor
      · intro h
        simp at h
      · intro r h
        simp at h
    · dsimp only
      by_cases hm : hasMarkerEntries es = true
      · rw [if_pos hm]
        constructor
        · intro h
          simp at h
        · intro r h
          have hreq : r = l ++ [a] := by
            have := h
            simp at this
            exact this.symm
          subst hreq
          refine ⟨by simp, List.prefix_refl _, ⟨es, hr, hm⟩, ?_⟩
          intro q hq hlen
          exact absurd hq.length_le (by omega)
      · rw [if_neg hm, List.dropLast_concat]
        have hm2 : hasMarkerEntries es = false := by
          simpa using hm
        obtain ⟨ih1, ih2⟩ := ih
        constructor
        · intro h q hq hqne
          rcases prefix_concat_cases hq with rfl | hql
          · exact ⟨es, hr, hm2⟩
          · exact ih1 h q hql hqne
        · intro r h
          obtain ⟨hrne, hrl, hes, hnear⟩ := ih2 r h
          refine ⟨hrne, hrl.trans (List.prefix_append l [a]), hes, ?_⟩
          intro q hq hlen
          rcases prefix_concat_cases hq with rfl | hql
          · exact ⟨es, hr, hm2⟩
          · exact hnear q hql hlen

/-- C1, filesystem used by the witness: the start directory itself
holds a .git marker. -/
def fsC1W : FNode := .dir true [(str "w", .dir true [(str ".git", .dir true [])])]

/-- C1, witness: on fsC1W the locator finds the start directory w
itself, and the amended characterization evaluates there. -/
theorem c1_witness :
    ([str "w"] : FPath) ≠ [] ∧ ([str "w"] : FPath) <+: [str "w"] ∧
    (∃ es, readdir fsC1W [str "w"] = some es ∧ hasMarkerEntries es = true) ∧
    ∀ q : FPath, q <+: [str "w"] → ([str "w"] : FPath).length < q.length →
      ∃ es, readdir fsC1W q = some es ∧ hasMarkerEntries es = false :=
  (c1_root_locator_characterization fsC1W [str "w"]).2 [str "w"] rfl

/-- Rendering a non-root path is flattening its slash-prefixed
segments. -/
lemma renderAbs_eq_flatten (p : FPath) (h : p ≠ []) :
    renderAbs p = (p.map (fun s => pathSep :: s)).flatten := by
  cases p with
  | nil => exact absurd rfl h
  | cons x xs => rfl

/-- Dropping the last segment of a non-root path with non-empty
segments strictly shortens its rendered string. -/
lemma renderAbs_dropLast_length_lt (segs : FPath) (hne : segs ≠ [])
    (hval : ∀ s ∈ segs, s ≠ []) :
    (renderAbs segs.dropLast).length < (renderAbs segs).length := by
  rcases List.eq_nil_or_concat segs with rfl | ⟨l, a, rfl⟩
  · exact absurd rfl hne
  · rw [List.concat_eq_append, List.dropLast_concat]
    rcases l with _ | ⟨x, xs⟩
    · have ha : a ≠ [] := hval a (by simp)
      simp [renderAbs, ha]
      exact List.length_pos.mpr ha
    · rw [renderAbs_eq_flatten (x :: xs) (by simp),
        renderAbs_eq_flatten ((x :: xs) ++ [a]) (by simp)]
      simp

/-- C2: the Containment Checker.  On fully resolved path strings the
code checker agrees with the specified predicate (equality with the
root, or the root followed by the separator as a prefix), the root is
within itself, a child of the root is within it, a sibling whose name
merely extends the root string is not, and the parent of a non-root
resolved path (rendered from non-empty segments) is not. -/
theorem c2_containment_checker (cand root : JStr) (segs : FPath)
    (hne : segs ≠ []) (hval : ∀ s ∈ segs, s ≠ []) :
    (isWithinWorkspace cand root = true ↔ specWithin cand root) ∧
    isWithinWorkspace root root = true ∧
    isWithinWorkspace (root ++ pathSep :: str "x") root = true ∧
    isWithinWorkspace (root ++ str "_sibling") root = false ∧
    isWithinWorkspace (renderAbs segs.dropLast) (renderAbs segs) = false := by
  refine ⟨?_, ?_, ?_, ?_, ?_⟩
  · simp [isWithinWorkspace, specWithin, List.isPrefixOf_iff_prefix, or_comm]
  · simp [isWithinWorkspace]
  · have h : (root ++ [pathSep]) <+: root ++ pathSep :: str "x" := by
      rw [show root ++ pathSep :: str "x" = (root ++ [pathSep]) ++ str "x" by simp]
      exact List.prefix_append _ _
    simp [isWithinWorkspace, List.isPrefixOf_iff_prefix, h]
  · have h1 : ¬ (root ++ [pathSep]) <+: root ++ str "_sibling" := by
      intro h
      rw [List.prefix_append_right_inj] at h
      obtain ⟨t, ht⟩ := h
      have : pathSep = '_' := by
        have := congrArg (fun l => l.head?) ht
        simpa [str] using this
      simp [pathSep] at this
    have h2 : root ++ str "_sibling" ≠ root := by
      intro h
      have := congrArg List.length h
      simp [str] at this
    have h1b : List.isPrefixOf (root ++ [pathSep]) (root ++ str "_sibling") = false := by
      rw [Bool.eq_false_iff]
      intro hb
      exact h1 (List.isPrefixOf_iff_prefix.mp hb)
    simp [isWithinWorkspace, h1b, h2]
  · have hlt := renderAbs_dropLast_length_lt segs hne hval
    have h1 : ¬ (renderAbs segs ++ [pathSep]) <+: renderAbs segs.dropLast := by
      intro h
      have := h.length_le
      simp at this
      omega
    have h2 : renderAbs segs.dropLast ≠ renderAbs segs := by
      intro h
      rw [h] at hlt
      exact lt_irrefl _ hlt
    have h1b : List.isPrefixOf (renderAbs segs ++ [pathSep]) (renderAbs segs.dropLast) = false := by
      rw [Bool.eq_false_iff]
      intro hb
      exact h1 (List.isPrefixOf_iff_prefix.mp hb)
    simp [isWithinWorkspace, h1b, h2]

/-- C2, witness: the checker instantiated at the root string /w, its
child /w/t, and the rendered one-segment path for the parent case. -/
theorem c2_witness :
    (isWithinWorkspace (str "/w/t") (str "/w") = true ↔ specWithin (str "/w/t") (str "/w")) ∧
    isWithinWorkspace (str "/w") (str "/w") = true ∧
    isWithinWorkspace (str "/w" ++ pathSep :: str "x") (str "/w") = true ∧
    isWithinWorkspace (str "/w" ++ str "_sibling") (str "/w") = false ∧
    isWithinWorkspace (renderAbs ([str "w"] : FPath).dropLast) (renderAbs [str "w"]) = false :=
  c2_containment_checker (str "/w/t") (str "/w") [str "w"] (by decide) (by decide)

/-- Soundness of the rm validation loop: when it reports no
violation, every target is within the workspace, exists, and is a
directory only when the recursive flag was given. -/
lemma validateRm_none_sound (fs : FNode) (workspaceRoot : FPath) (recursive : Bool) :
    ∀ ts : List FPath, validateRm fs workspaceRoot recursive ts = none →
      ∀ t ∈ ts, isWithinWorkspace (renderAbs t) (renderAbs workspaceRoot) = true ∧
        ∃ n, lookup fs t = some n ∧ (isDirNode n = true → recursive = true) := by
  intro ts
  induction ts with
  | nil => intro _ t ht; simp at ht
  | cons t rest ih =>
    intro h u hu
    simp only [validateRm] at h
    by_cases hw : isWithinWorkspace (renderAbs t) (renderAbs workspaceRoot) = true
    · rw [hw] at h
      simp only [Bool.not_true, Bool.false_eq_true, if_false] at h
      rcases hl : lookup fs t with _ | n
      · rw [hl] at h
        simp at h
      · rw [hl] at h
        dsimp only at h
        by_cases hd : (isDirNode n && !recursive) = true
        · rw [if_pos hd] at h
          simp at h
        · rw [if_neg hd] at h
          rcases List.mem_cons.mp hu with rfl | humem
          · refine ⟨hw, n, hl, ?_⟩
            intro hdir
            rcases hrec : recursive with _ | _
            · rw [hdir, hrec] at hd
              simp at hd
            · rfl
          · exact ih h u humem
    · have hw2 : isWithinWorkspace (renderAbs t) (renderAbs workspaceRoot) = false := by
        simpa using hw
      rw [hw2] at h
      simp at h

/-- C3: the remove command validates every target before any removal.
Under the operating mode of the claim (no help, show-root or check
flag) with a located workspace root: when any target is outside the
workspace, or missing, or a directory while the recursive flag is
absent, the process exits nonzero, issues no mutating filesystem
call, and leaves the filesystem unchanged. -/
theorem c3_rm_validates_all_before_mutate (fs : FNode) (cwd : FPath) (args : RmArgs)
    (workspaceRoot : FPath)
    (h1 : args.help = false) (h2 : args.showRoot = false) (h3 : args.check = false)
    (h4 : findWorkspaceRoot fs cwd = .ok (some workspaceRoot))
    (h5 : ∃ t ∈ args.targets,
      isWithinWorkspace (renderAbs t) (renderAbs workspaceRoot) = false ∨
      lookup fs t = none ∨
      ∃ n, lookup fs t = some n ∧ isDirNode n = true ∧ args.recursive = false) :
    (rmMain fs cwd args).exitCode ≠ 0 ∧ (rmMain fs cwd args).fs = fs ∧
      (rmMain fs cwd args).events = [] := by
  obtain ⟨t0, ht0, hbad0⟩ := h5
  have hne : args.targets.isEmpty = false := by
    cases hts : args.targets with
    | nil => rw [hts] at ht0; simp at ht0
    | cons a l => simp [hts]
  rcases hv : validateRm fs workspaceRoot args.recursive args.targets with _ | e
  · exfalso
    obtain ⟨hw, n, hl, himp⟩ := validateRm_none_sound fs workspaceRoot args.recursive
      args.targets hv t0 ht0
    rcases hbad0 with h | h | ⟨n2, hn2, hd2, hr2⟩
    · rw [h] at hw
      simp at hw
    · rw [h] at hl
      cases hl
    · rw [hn2] at hl
      injection hl with hnn
      subst hnn
      rw [himp hd2] at hr2
      cases hr2
  · simp [rmMain, h1, h2, h3, h4, hne, hv]

/-- C3, filesystem used by the witness: a workspace rooted at w
containing a file t, and a file out outside the workspace. -/
def fsC3W : FNode :=
  .dir true [(str "w", .dir true [(str "package.json", .file), (str "t", .file)]),
    (str "out", .file)]

/-- C3, arguments used by the witness: remove the in-workspace file t
together with the outside file out. -/
def rmArgsC3W : RmArgs := ⟨false, false, false, false, false, [[str "w", str "t"], [str "out"]]⟩

/-- C3, witness: with one target outside the workspace, the remove
command exits nonzero, deletes nothing and changes nothing. -/
theorem c3_witness :
    (rmMain fsC3W [str "w"] rmArgsC3W).exitCode ≠ 0 ∧
    (rmMain fsC3W [str "w"] rmArgsC3W).fs = fsC3W ∧
    (rmMain fsC3W [str "w"] rmArgsC3W).events = [] :=
  c3_rm_validates_all_before_mutate fsC3W [str "w"] rmArgsC3W [str "w"]
    rfl rfl rfl rfl ⟨[str "out"], by decide, Or.inl (by decide)⟩

/-- C4: the move command checks containment of both endpoints before
any mutating filesystem call.  Under the operating mode of the claim
with a located workspace root and a source and destination argument:
when either endpoint is outside the workspace, the process exits
nonzero, issues no mutating call (in particular neither mkdirSync nor
renameSync), and leaves the filesystem unchanged. -/
theorem c4_mv_validates_before_mutate (fs : FNode) (cwd : FPath) (args : MvArgs)
    (workspaceRoot sourceP destP : FPath)
    (h1 : args.help = false) (h2 : args.showRoot = false) (h3 : args.check = false)
    (h4 : findWorkspaceRoot fs cwd = .ok (some workspaceRoot))
    (h5 : args.paths = [sourceP, destP])
    (h6 : isWithinWorkspace (renderAbs sourceP) (renderAbs workspaceRoot) = false ∨
          isWithinWorkspace (renderAbs destP) (renderAbs workspaceRoot) = false) :
    (mvMain fs cwd args).exitCode ≠ 0 ∧ (mvMain fs cwd args).fs = fs ∧
      (mvMain fs cwd args).events = [] := by
  rcases hl : lookup fs sourceP with _ | n
  · simp [mvMain, h1, h2, h3, h4, h5, hl]
  · rcases h6 with h | h
    · simp [mvMain, h1, h2, h3, h4, h5, hl, h]
    · by_cases hsw : isWithinWorkspace (renderAbs sourceP) (renderAbs workspaceRoot) = true
      · simp [mvMain, h1, h2, h3, h4, h5, hl, hsw, h]
      · have hsw2 : isWithinWorkspace (renderAbs sourceP) (renderAbs workspaceRoot) = false := by
          simpa using hsw
        simp [mvMain, h1, h2, h3, h4, h5, hl, hsw2]

/-- C4, arguments used by the witness: move the in-workspace file t
to a destination outside the workspace. -/
def mvArgsC4W : MvArgs := ⟨false, false, false, [[str "w", str "t"], [str "out"]]⟩

/-- C4, witness: with the destination outside the workspace, the move
command exits nonzero, issues no mutating call and changes nothing. -/
theorem c4_witness :
    (mvMain fsC3W [str "w"] mvArgsC4W).exitCode ≠ 0 ∧
    (mvMain fsC3W [str "w"] mvArgsC4W).fs = fsC3W ∧
    (mvMain fsC3W [str "w"] mvArgsC4W).events = [] :=
  c4_mv_validates_before_mutate fsC3W [str "w"] mvArgsC4W [str "w"] [str "w", str "t"]
    [str "out"] rfl rfl rfl rfl rfl (Or.inr (by decide))

/-- C5, filesystem of the counterexample: a workspace rooted at w
holding a directory d with a file f. -/
def fsC5 : FNode :=
  .dir true [(str "w", .dir true [(str "package.json", .file),
    (str "d", .dir true [(str "f", .file)])])]

/-- C5, arguments of the counterexample: remove, recursively and
forced, the directory d and then the path d/f.  Both pass validation
(both exist and are within the workspace), but removing d also
removes d/f, so the second removal's statSync throws during the
mutation phase. -/
def rmArgsC5 : RmArgs :=
  ⟨false, false, false, true, true, [[str "w", str "d"], [str "w", str "d", str "f"]]⟩

/-- C5, counterexample.  The claim states that a remove invocation in
which some target's removal fails during the mutation phase exits
nonzero.  In this invocation the removal of the second target fails
during the mutation phase and the failure is reported to the error
stream, yet the process exit code is 0: the source catches the
exception, prints the error, and main then returns normally without
calling process.exit with a nonzero code. -/
theorem c5_counterexample :
    (rmMain fsC5 [str "w"] rmArgsC5).stderr
        = [.removeFailed [str "w", str "d", str "f"]] ∧
    (rmMain fsC5 [str "w"] rmArgsC5).exitCode = 0 :=
  ⟨rfl, rfl⟩

/-- C5, amended.  Every validation error of the taxonomy is reported
to the error stream and exits the process with code 1: a missing
workspace root (all three commands); a missing, non-directory or
out-of-workspace target (cd); a missing or out-of-workspace source
and an out-of-workspace destination (mv); any rm validation failure;
and every mv mutation failure, on each of its three paths (a rename
failure with an existing destination parent, a rename failure after
the destination parent was created, and a failing destination-parent
creation itself, which the source does not catch and which therefore
terminates the node process with the uncaught exception).  But once
rm validation passes the process exits 0 even when removals fail
during the mutation phase, those failures being reported per-target
on the error stream. -/
theorem c5_amended_error_reporting (fs : FNode) (cwd : FPath)
    (cargs : CdArgs) (margs : MvArgs) (rargs : RmArgs)
    (workspaceRoot t sourceP destP : FPath) :
    (cargs.help = false → findWorkspaceRoot fs cwd = .ok none →
      (cdMain fs cwd cargs).exitCode = 1 ∧
      (cdMain fs cwd cargs).stderr = [.rootNotFound]) ∧
    (margs.help = false → findWorkspaceRoot fs cwd = .ok none →
      (mvMain fs cwd margs).exitCode = 1 ∧
      (mvMain fs cwd margs).stderr = [.rootNotFound]) ∧
    (rargs.help = false → findWorkspaceRoot fs cwd = .ok none →
      (rmMain fs cwd rargs).exitCode = 1 ∧
      (rmMain fs cwd rargs).stderr = [.rootNotFound]) ∧
    (cargs.help = false → cargs.showRoot = false → cargs.check = false →
      cargs.target = some t → findWorkspaceRoot fs cwd = .ok (some workspaceRoot) →
      lookup fs t = none →
      (cdMain fs cwd cargs).exitCode = 1 ∧
      (cdMain fs cwd cargs).stderr = [.targetMissing t]) ∧
    (∀ n, cargs.help = false → cargs.showRoot = false → cargs.check = false →
      cargs.target = some t → findWorkspaceRoot fs cwd = .ok (some workspaceRoot) →
      lookup fs t = some n → isDirNode n = false →
      (cdMain fs cwd cargs).exitCode = 1 ∧
      (cdMain fs cwd cargs).stderr = [.notADirectory t]) ∧
    (∀ n, cargs.help = false → cargs.showRoot = false → cargs.check = false →
      cargs.target = some t → findWorkspaceRoot fs cwd = .ok (some workspaceRoot) →
      lookup fs t = some n → isDirNode n = true →
      isWithinWorkspace (renderAbs t) (renderAbs workspaceRoot) = false →
      (cdMain fs cwd cargs).exitCode = 1 ∧
      (cdMain fs cwd cargs).stderr = [.outsideWorkspace t]) ∧
    (margs.help = false → margs.showRoot = false → margs.check = false →
      margs.paths = [sourceP, destP] →
      findWorkspaceRoot fs cwd = .ok (some workspaceRoot) →
      lookup fs sourceP = none →
      (mvMain fs cwd margs).exitCode = 1 ∧
      (mvMain fs cwd margs).stderr = [.sourceMissing sourceP]) ∧
    (∀ n, margs.help = false → margs.showRoot = false → margs.check = false →
      margs.paths = [sourceP, destP] →
      findWorkspaceRoot fs cwd = .ok (some workspaceRoot) →
      lookup fs sourceP = some n →
      isWithinWorkspace (renderAbs sourceP) (renderAbs workspaceRoot) = false →
      (mvMain fs cwd margs).exitCode = 1 ∧
      (mvMain fs cwd margs).stderr = [.outsideWorkspace sourceP]) ∧
    (∀ n, margs.help = false → margs.showRoot = false → margs.check = false →
      margs.paths = [sourceP, destP] →
      findWorkspaceRoot fs cwd = .ok (some workspaceRoot) →
      lookup fs sourceP = some n →
      isWithinWorkspace (renderAbs sourceP) (renderAbs workspaceRoot) = true →
      isWithinWorkspace (renderAbs destP) (renderAbs workspaceRoot) = false →
      (mvMain fs cwd margs).exitCode = 1 ∧
      (mvMain fs cwd margs).stderr = [.outsideWorkspace destP]) ∧
    (∀ n, margs.help = false → margs.showRoot = false → margs.check = false →
      margs.paths = [sourceP, destP] →
      findWorkspaceRoot fs cwd = .ok (some workspaceRoot) →
      lookup fs sourceP = some n →
      isWithinWorkspace (renderAbs sourceP) (renderAbs workspaceRoot) = true →
      isWithinWorkspace (renderAbs destP) (renderAbs workspaceRoot) = true →
      (lookup fs destP.dropLast).isNone = true →
      mkdirp fs destP.dropLast = none →
      (mvMain fs cwd margs).exitCode = 1 ∧
      (mvMain fs cwd margs).stderr = [.uncaughtException]) ∧
    (∀ n fs1, margs.help = false → margs.showRoot = false → margs.check = false →
      margs.paths = [sourceP, destP] →
      findWorkspaceRoot fs cwd = .ok (some workspaceRoot) →
      lookup fs sourceP = some n →
      isWithinWorkspace (renderAbs sourceP) (renderAbs workspaceRoot) = true →
      isWithinWorkspace (renderAbs destP) (renderAbs workspaceRoot) = true →
      (lookup fs destP.dropLast).isNone = true →
      mkdirp fs destP.dropLast = some fs1 →
      rename fs1 sourceP destP = none →
      (mvMain fs cwd margs).exitCode = 1 ∧
      (mvMain fs cwd margs).stderr = [.moveFailed sourceP destP]) ∧
    (∀ n, margs.help = false → margs.showRoot = false → margs.check = false →
      margs.paths = [sourceP, destP] →
      findWorkspaceRoot fs cwd = .ok (some workspaceRoot) →
      lookup fs sourceP = some n →
      isWithinWorkspace (renderAbs sourceP) (renderAbs workspaceRoot) = true →
      isWithinWorkspace (renderAbs destP) (renderAbs workspaceRoot) = true →
      (lookup fs destP.dropLast).isNone = false →
      rename fs sourceP destP = none →
      (mvMain fs cwd margs).exitCode = 1 ∧
      (mvMain fs cwd margs).stderr = [.moveFailed sourceP destP]) ∧
    (rargs.help = false → rargs.showRoot = false → rargs.check = false →
      rargs.targets.isEmpty = false →
      findWorkspaceRoot fs cwd = .ok (some workspaceRoot) →
      ∀ e, validateRm fs workspaceRoot rargs.recursive rargs.targets = some e →
      (rmMain fs cwd rargs).exitCode = 1 ∧ (rmMain fs cwd rargs).stderr = [e]) ∧
    (rargs.help = false → rargs.showRoot = false → rargs.check = false →
      rargs.targets.isEmpty = false →
      findWorkspaceRoot fs cwd = .ok (some workspaceRoot) →
      validateRm fs workspaceRoot rargs.recursive rargs.targets = none →
      (rmMain fs cwd rargs).exitCode = 0 ∧
      (rmMain fs cwd rargs).stderr = (rmMutate fs rargs.targets).errors) := by
  refine ⟨?_, ?_, ?_, ?_, ?_, ?_, ?_, ?_, ?_, ?_, ?_, ?_, ?_, ?_⟩
  · intro h1 h2
    simp [cdMain, h1, h2]
  · intro h1 h2
    simp [mvMain, h1, h2]
  · intro h1 h2
    simp [rmMain, h1, h2]
  · intro h1 h2 h3 h4 h5 h6
    simp [cdMain, h1, h2, h3, h4, h5, h6]
  · intro n h1 h2 h3 h4 h5 h6 h7
    simp [cdMain, h1, h2, h3, h4, h5, h6, h7]
  · intro n h1 h2 h3 h4 h5 h6 h7 h8
    simp [cdMain, h1, h2, h3, h4, h5, h6, h7, h8]
  · intro h1 h2 h3 h4 h5 h6
    simp [mvMain, h1, h2, h3, h4, h5, h6]
  · intro n h1 h2 h3 h4 h5 h6 h7
    simp [mvMain, h1, h2, h3, h4, h5, h6, h7]
  · intro n h1 h2 h3 h4 h5 h6 h7 h8
    simp [mvMain, h1, h2, h3, h4, h5, h6, h7, h8]
  · intro n h1 h2 h3 h4 h5 h6 h7 h8 h9 h10
    simp [mvMain, h1, h2, h3, h4, h5, h6, h7, h8, h9, h10]
  · intro n fs1 h1 h2 h3 h4 h5 h6 h7 h8 h9 h10 h11
    simp [mvMain, h1, h2, h3, h4, h5, h6, h7, h8, h9, h10, h11]
  · intro n h1 h2 h3 h4 h5 h6 h7 h8 h9 h10
    simp [mvMain, h1, h2, h3, h4, h5, h6, h7, h8, h9, h10]
  · intro h1 h2 h3 h4 h5 e h6
    simp [rmMain, h1, h2, h3, h4, h5, h6]
  · intro h1 h2 h3 h4 h5 h6
    simp [rmMain, h1, h2, h3, h4, h5, h6]

/-- C5, witness: the amended statement applied to an invocation
started outside any workspace (root not found is reported and exits
1), to a move whose destination is outside the workspace (the
containment violation is reported and exits 1), and to the
counterexample invocation (rm validation passes, the second removal
fails during the mutation phase, the failure is on stderr and the
exit code is 0). -/
theorem c5_witness :
    ((cdMain fsC5 [] ⟨false, false, false, none⟩).exitCode = 1 ∧
      (cdMain fsC5 [] ⟨false, false, false, none⟩).stderr = [.rootNotFound]) ∧
    ((mvMain fsC3W [str "w"] mvArgsC4W).exitCode = 1 ∧
      (mvMain fsC3W [str "w"] mvArgsC4W).stderr = [.outsideWorkspace [str "out"]]) ∧
    ((rmMain fsC5 [str "w"] rmArgsC5).exitCode = 0 ∧
      (rmMain fsC5 [str "w"] rmArgsC5).stderr = (rmMutate fsC5 rmArgsC5.targets).errors) :=
  ⟨(c5_amended_error_reporting fsC5 [] ⟨false, false, false, none⟩
      ⟨false, false, false, []⟩ ⟨false, false, false, false, false, []⟩ [] [] [] []).1
      rfl rfl,
   (c5_amended_error_reporting fsC3W [str "w"] ⟨false, false, false, none⟩
      mvArgsC4W ⟨false, false, false, false, false, []⟩ [str "w"] []
      [str "w", str "t"] [str "out"]).2.2.2.2.2.2.2.2.1
      FNode.file rfl rfl rfl rfl rfl rfl rfl rfl,
   ((c5_amended_error_reporting fsC5 [str "w"] ⟨false, false, false, none⟩
      ⟨false, false, false, []⟩ rmArgsC5 [str "w"] [] [] []).2.2.2.2.2.2.2.2.2.2.2.2.2
      rfl rfl rfl rfl rfl rfl)⟩

/-- The hand-off line printed by a successful cd-vs-local invocation:
the CHANGE_DIR= marker immediately followed by the resolved absolute
target path, unquoted. -/
def changeDirLine (t : FPath) : JStr := str "CHANGE_DIR=" ++ renderAbs t

/-- Recognizes a stdout line carrying the CHANGE_DIR= marker. -/
def isChangeDirLine (l : JStr) : Bool := (str "CHANGE_DIR=").isPrefixOf l

/-- The hand-off line of a target is recognized as such. -/
lemma isChangeDirLine_changeDirLine (t : FPath) :
    isChangeDirLine (changeDirLine t) = true := by
  have h : (str "CHANGE_DIR=") <+: changeDirLine t := List.prefix_append _ _
  simpa [isChangeDirLine, List.isPrefixOf_iff_prefix] using h

/-- C6: the CHANGE_DIR hand-off contract of cd-vs-local.  On the
success path the process exits 0 and the stdout lines carrying the
CHANGE_DIR= marker are exactly one line, the marker immediately
followed by the resolved absolute target path; on each failure path
(workspace root not found, target missing, target not a directory,
target outside the workspace) no stdout line carries the marker. -/
theorem c6_change_dir_line (fs : FNode) (cwd : FPath) (args : CdArgs)
    (workspaceRoot t : FPath) :
    (∀ n, args.help = false → args.showRoot = false → args.check = false →
      args.target = some t →
      findWorkspaceRoot fs cwd = .ok (some workspaceRoot) →
      lookup fs t = some n → isDirNode n = true →
      isWithinWorkspace (renderAbs t) (renderAbs workspaceRoot) = true →
      (cdMain fs cwd args).exitCode = 0 ∧
      (cdMain fs cwd args).stdout.filter isChangeDirLine = [changeDirLine t]) ∧
    (args.help = false → findWorkspaceRoot fs cwd = .ok none →
      (cdMain fs cwd args).stdout.filter isChangeDirLine = []) ∧
    (args.help = false → args.showRoot = false → args.check = false →
      args.target = some t →
      findWorkspaceRoot fs cwd = .ok (some workspaceRoot) →
      lookup fs t = none →
      (cdMain fs cwd args).stdout.filter isChangeDirLine = []) ∧
    (∀ n, args.help = false → args.showRoot = false → args.check = false →
      args.target = some t →
      findWorkspaceRoot fs cwd = .ok (some workspaceRoot) →
      lookup fs t = some n → isDirNode n = false →
      (cdMain fs cwd args).stdout.filter isChangeDirLine = []) ∧
    (∀ n, args.help = false → args.showRoot = false → args.check = false →
      args.target = some t →
      findWorkspaceRoot fs cwd = .ok (some workspaceRoot) →
      lookup fs t = some n → isDirNode n = true →
      isWithinWorkspace (renderAbs t) (renderAbs workspaceRoot) = false →
      (cdMain fs cwd args).stdout.filter isChangeDirLine = []) := by
  refine ⟨?_, ?_, ?_, ?_, ?_⟩
  · intro n h1 h2 h3 h4 h5 h6 h7 h8
    have e1 : isChangeDirLine (str "✅ cd " ++ relPath cwd t) = false := rfl
    have e2 : isChangeDirLine (str "📁 " ++ renderAbs t) = false := rfl
    have e3 : isChangeDirLine (str "🏠 Workspace: " ++ wsDisplay (relPath workspaceRoot t))
        = false := rfl
    have e4 := isChangeDirLine_changeDirLine t
    simp only [changeDirLine] at e4
    simp [cdMain, h1, h2, h3, h4, h5, h6, h7, h8, List.filter, e1, e2, e3, e4, changeDirLine]
  · intro h1 h2
    simp [cdMain, h1, h2]
  · intro h1 h2 h3 h4 h5 h6
    simp [cdMain, h1, h2, h3, h4, h5, h6]
  · intro n h1 h2 h3 h4 h5 h6 h7
    simp [cdMain, h1, h2, h3, h4, h5, h6, h7]
  · intro n h1 h2 h3 h4 h5 h6 h7 h8
    simp [cdMain, h1, h2, h3, h4, h5, h6, h7, h8]

/-- C6, witness: on fsC5, changing into the workspace directory d
succeeds and emits exactly the hand-off line for it, while an
invocation started outside any workspace emits none. -/
theorem c6_witness :
    ((cdMain fsC5 [str "w"] ⟨false, false, false, some [str "w", str "d"]⟩).exitCode = 0 ∧
      (cdMain fsC5 [str "w"] ⟨false, false, false, some [str "w", str "d"]⟩).stdout.filter
        isChangeDirLine = [changeDirLine [str "w", str "d"]]) ∧
    (cdMain fsC5 [] ⟨false, false, false, some [str "w", str "d"]⟩).stdout.filter
      isChangeDirLine = [] :=
  ⟨(c6_change_dir_line fsC5 [str "w"] ⟨false, false, false, some [str "w", str "d"]⟩
      [str "w"] [str "w", str "d"]).1 (.dir true [(str "f", .file)])
      rfl rfl rfl rfl rfl rfl rfl rfl,
   (c6_change_dir_line fsC5 [] ⟨false, false, false, some [str "w", str "d"]⟩
      [] [str "w", str "d"]).2.1 rfl rfl⟩

/-- C7: check mode performs no mutating filesystem call in any of the
three commands, whatever the targets: the event list is empty and the
filesystem after the invocation is the filesystem before it. -/
theorem c7_check_mode_never_mutates (fs : FNode) (cwd : FPath)
    (cargs : CdArgs) (margs : MvArgs) (rargs : RmArgs)
    (h1 : cargs.check = true) (h2 : margs.check = true) (h3 : rargs.check = true) :
    ((cdMain fs cwd cargs).fs = fs ∧ (cdMain fs cwd cargs).events = []) ∧
    ((mvMain fs cwd margs).fs = fs ∧ (mvMain fs cwd margs).events = []) ∧
    ((rmMain fs cwd rargs).fs = fs ∧ (rmMain fs cwd rargs).events = []) := by
  refine ⟨?_, ?_, ?_⟩
  · unfold cdMain
    repeat' first
    | exact ⟨rfl, rfl⟩
    | contradiction
    | split
  · unfold mvMain
    repeat' first
    | exact ⟨rfl, rfl⟩
    | contradiction
    | split
  · unfold rmMain
    repeat' first
    | exact ⟨rfl, rfl⟩
    | contradiction
    | split

/-- C7, witness: check mode applied to targets outside the workspace
and to missing targets leaves the filesystem untouched in all three
commands. -/
theorem c7_witness :
    ((cdMain fsC5 [str "w"] ⟨false, false, true, some [str "out"]⟩).fs = fsC5 ∧
      (cdMain fsC5 [str "w"] ⟨false, false, true, some [str "out"]⟩).events = []) ∧
    ((mvMain fsC5 [str "w"] ⟨false, false, true, [[str "w", str "d"], [str "out"]]⟩).fs = fsC5 ∧
      (mvMain fsC5 [str "w"] ⟨false, false, true, [[str "w", str "d"], [str "out"]]⟩).events
        = []) ∧
    ((rmMain fsC5 [str "w"]
        ⟨false, false, true, false, false, [[str "missing"]]⟩).fs = fsC5 ∧
      (rmMain fsC5 [str "w"]
        ⟨false, false, true, false, false, [[str "missing"]]⟩).events = []) :=
  c7_check_mode_never_mutates fsC5 [str "w"] ⟨false, false, true, some [str "out"]⟩
    ⟨false, false, true, [[str "w", str "d"], [str "out"]]⟩
    ⟨false, false, true, false, false, [[str "missing"]]⟩ rfl rfl rfl

/-- Trace shape of a successful removal, proved for nodes and entry
lists together by strong induction on size: a successful
removeRecursively deletes the entry and its event list consists of
events on strict descendants followed by the final rmdirSync or
unlinkSync on the path itself; all events of a successful
removeChildren run lie strictly below the directory path. -/
lemma removeRecursively_ok_sized (k : Nat) :
    (∀ (n : FNode), sizeOf n ≤ k → ∀ (p : FPath) (res : Option FNode) (evs : List MEv),
      removeRecursively p n = (res, evs, true) →
      res = none ∧ ∃ evsC,
        evs = evsC ++ [if isDirNode n then MEv.rmdirSync p else MEv.unlinkSync p] ∧
        ∀ e ∈ evsC, ∃ s : FPath, s ≠ [] ∧ evPath e = p ++ s) ∧
    (∀ (l : List (JStr × FNode)), sizeOf l ≤ k →
      ∀ (p : FPath) (rem : List (JStr × FNode)) (evs : List MEv),
      removeChildren p l = (rem, evs, true) →
      ∀ e ∈ evs, ∃ s : FPath, s ≠ [] ∧ evPath e = p ++ s) := by
  induction k with
  | zero =>
    constructor
    · intro n hn
      exfalso
      cases n <;> simp at hn
    · intro l hl
      exfalso
      cases l <;> simp at hl
  | succ k ih =>
    constructor
    · intro n hn p res evs hrun
      cases n with
      | file =>
        unfold removeRecursively at hrun
        injection hrun with h1 h2
        injection h2 with h2 h3
        subst h1
        subst h2
        exact ⟨rfl, [], by simp [isDirNode], by simp⟩
      | dir rd es =>
        unfold removeRecursively at hrun
        cases rd with
        | false => simp at hrun
        | true =>
          rw [if_pos rfl] at hrun
          rcases hrc : removeChildren p es with ⟨rem, evs2, ok⟩
          rw [hrc] at hrun
          cases ok with
          | false => simp at hrun
          | true =>
            dsimp only at hrun
            injection hrun with h1 h2
            injection h2 with h2 h3
            subst h1
            subst h2
            have hsz : sizeOf es ≤ k := by
              simp [FNode.dir.sizeOf_spec] at hn
              omega
            refine ⟨rfl, evs2, by simp [isDirNode], ?_⟩
            exact ih.2 es hsz p rem evs2 hrc
    · intro l hl p rem evs hrun
      cases l with
      | nil =>
        unfold removeChildren at hrun
        injection hrun with h1 h2
        injection h2 with h2 h3
        subst h2
        intro e he
        simp at he
      | cons hd tl =>
        rcases hd with ⟨name, c⟩
        unfold removeChildren at hrun
        rcases hrr : removeRecursively (p ++ [name]) c with ⟨cres, cevs, cok⟩
        rw [hrr] at hrun
        have hszc : sizeOf c ≤ k := by
          simp [List.cons.sizeOf_spec, Prod.mk.sizeOf_spec] at hl
          omega
        have hsztl : sizeOf tl ≤ k := by
          simp [List.cons.sizeOf_spec, Prod.mk.sizeOf_spec] at hl
          omega
        cases cok with
        | false =>
          rcases cres with _ | cn <;> simp at hrun
        | true =>
          rcases cres with _ | cn
          · rcases hrt : removeChildren p tl with ⟨rem2, evs3, ok2⟩
            rw [hrt] at hrun
            dsimp only at hrun
            injection hrun with h1 h2
            injection h2 with h2 h3
            subst h2
            subst h3
            obtain ⟨_, evsC, hshape, hdesc⟩ := ih.1 c hszc (p ++ [name]) none cevs hrr
            intro e he
            rcases List.mem_append.mp he with hec | he3
            · rw [hshape] at hec
              rcases List.mem_append.mp hec with hec2 | helast
              · obtain ⟨s, hs, hes⟩ := hdesc e hec2
                exact ⟨[name] ++ s, by simp, by simp [hes]⟩
              · have : evPath e = p ++ [name] := by
                  rcases List.mem_singleton.mp helast with rfl
                  cases isDirNode c <;> simp [evPath]
                  -- the if reduces to one of the two events, both on p ++ [name]
                exact ⟨[name], by simp, this⟩
            · exact ih.2 tl hsztl p rem2 evs3 hrt e he3
          · simp at hrun

/-- Wrapper of the sized trace lemma at the node itself. -/
lemma removeRecursively_ok_shape (n : FNode) (p : FPath) (res : Option FNode)
    (evs : List MEv) (h : removeRecursively p n = (res, evs, true)) :
    res = none ∧ ∃ evsC,
      evs = evsC ++ [if isDirNode n then MEv.rmdirSync p else MEv.unlinkSync p] ∧
      ∀ e ∈ evsC, ∃ s : FPath, s ≠ [] ∧ evPath e = p ++ s :=
  (removeRecursively_ok_sized (sizeOf n)).1 n le_rfl p res evs h

/-- Looking up a key absent from an entry list fails. -/
lemma lookupEntries_no_key (l : List (JStr × FNode)) (s : JStr) (q : FPath)
    (h : l.any (fun e => e.1 == s) = false) : lookupEntries l s q = none := by
  induction l with
  | nil => rfl
  | cons hd rest ih =>
    rcases hd with ⟨n, c⟩
    simp only [List.any_cons, Bool.or_eq_false_iff] at h
    unfold lookupEntries
    rw [h.1]
    exact ih h.2

/-- Deleting the entry named s from a duplicate-free entry list makes
lookups of s fail. -/
lemma lookupEntries_editEntries_delete (es : List (JStr × FNode)) (s : JStr) (q : FPath)
    (hnd : keysNodup es = true) :
    lookupEntries (editEntries es s [] none) s q = none := by
  induction es with
  | nil => rfl
  | cons hd rest ih =>
    rcases hd with ⟨n, c⟩
    simp only [keysNodup, Bool.and_eq_true, Bool.not_eq_true'] at hnd
    unfold editEntries
    by_cases hns : (n == s) = true
    · rw [if_pos hns]
      have hn : n = s := eq_of_beq hns
      subst hn
      exact lookupEntries_no_key rest n q hnd.1
    · rw [if_neg hns]
      unfold lookupEntries
      rw [Bool.eq_false_iff.mpr hns]
      exact ih hnd.2

/-- Editing below the entry named s in an entry list makes lookups
through s fail if the edit makes them fail in the child. -/
lemma lookupEntries_editEntries_deep (s2 : JStr) (ss2 q : FPath)
    (ihc : ∀ c : FNode, wfNode c = true →
      lookup (replaceAt c (s2 :: ss2) none) ((s2 :: ss2) ++ q) = none) :
    ∀ (es : List (JStr × FNode)) (s : JStr), keysNodup es = true → wfEntries es = true →
      lookupEntries (editEntries es s (s2 :: ss2) none) s ((s2 :: ss2) ++ q) = none := by
  intro es
  induction es with
  | nil => intro s _ _; rfl
  | cons hd rest ih =>
    rcases hd with ⟨n, c⟩
    intro s hnd hwf
    simp only [keysNodup, Bool.and_eq_true] at hnd
    simp only [wfEntries, Bool.and_eq_true] at hwf
    unfold editEntries
    by_cases hns : (n == s) = true
    · rw [if_pos hns]
      dsimp only
      unfold lookupEntries
      rw [hns]
      exact ihc c hwf.1
    · rw [if_neg hns]
      unfold lookupEntries
      rw [Bool.eq_false_iff.mpr hns]
      exact ih s hnd.2 hwf.2

/-- Deleting the entry at a non-root path of a well-formed filesystem
makes the path and every path below it absent. -/
lemma lookup_replaceAt_delete : ∀ (p : FPath) (fs : FNode) (q : FPath),
    wfNode fs = true → p ≠ [] → lookup (replaceAt fs p none) (p ++ q) = none := by
  intro p
  induction p with
  | nil => intro fs q _ hne; exact absurd rfl hne
  | cons s ss ih =>
    intro fs q hwf _
    cases fs with
    | file => rfl
    | dir rd es =>
      simp only [wfNode, Bool.and_eq_true] at hwf
      cases ss with
      | nil => exact lookupEntries_editEntries_delete es s q hwf.1
      | cons s2 ss2 =>
        exact lookupEntries_editEntries_deep s2 ss2 q
          (fun c hc => ih c q hc (by simp)) es s hwf.1 hwf.2

/-- C8: recursive removal is depth-first.  For a directory entry at a
non-root path of a well-formed filesystem, a removeRecursively call
that completes deletes the entry; its mutating calls are events on
strict descendants of the directory followed, last, by the rmdirSync
of the directory itself (children before parent); and in the
filesystem with the deletion applied, as the remove command applies
it, the directory and every path below it are absent. -/
theorem c8_remove_recursive_depth_first (fs : FNode) (p : FPath) (n : FNode)
    (res : Option FNode) (evs : List MEv)
    (hwf : wfNode fs = true) (hp : p ≠ [])
    (hl : lookup fs p = some n) (hdir : isDirNode n = true)
    (hrun : removeRecursively p n = (res, evs, true)) :
    res = none ∧
    (∃ evsC, evs = evsC ++ [MEv.rmdirSync p] ∧
      ∀ e ∈ evsC, ∃ s : FPath, s ≠ [] ∧ evPath e = p ++ s) ∧
    ∀ q : FPath, lookup (replaceAt fs p none) (p ++ q) = none := by
  obtain ⟨hres, evsC, hevs, hdesc⟩ := removeRecursively_ok_shape n p res evs hrun
  rw [hdir] at hevs
  simp only [if_true] at hevs
  exact ⟨hres, ⟨evsC, hevs, hdesc⟩, fun q => lookup_replaceAt_delete p fs q hwf hp⟩

/-- C8, witness: removing the directory d of fsC5 unlinks its file f
first, removes d itself last, and leaves d and everything below it
absent. -/
theorem c8_witness :
    (none : Option FNode) = none ∧
    (∃ evsC, [MEv.unlinkSync [str "w", str "d", str "f"], MEv.rmdirSync [str "w", str "d"]]
        = evsC ++ [MEv.rmdirSync [str "w", str "d"]] ∧
      ∀ e ∈ evsC, ∃ s : FPath, s ≠ [] ∧ evPath e = [str "w", str "d"] ++ s) ∧
    ∀ q : FPath, lookup (replaceAt fsC5 [str "w", str "d"] none)
      ([str "w", str "d"] ++ q) = none :=
  c8_remove_recursive_depth_first fsC5 [str "w", str "d"]
    (.dir true [(str "f", .file)]) none
    [MEv.unlinkSync [str "w", str "d", str "f"], MEv.rmdirSync [str "w", str "d"]]
    (by decide) (by decide) rfl rfl rfl

/-- Listing-failure propagation along the reversed walk: if any
directory the walk reaches fails to list, the walk ends in the
propagated error. -/
lemma findRootUp_error_of_examined (fs : FNode) :
    ∀ (rev : FPath) (p : FPath), p ∈ examinedUp fs rev → readdir fs p = none →
      findRootUp fs rev = .error () := by
  intro rev
  induction rev with
  | nil => intro p hp; simp [examinedUp] at hp
  | cons s rest ih =>
    intro p hp hfail
    unfold examinedUp at hp
    unfold findRootUp
    rcases List.mem_cons.mp hp with rfl | htail
    · rw [hfail]
    · rcases hr : readdir fs ((s :: rest).reverse) with _ | es
      · rfl
      · rw [hr] at htail
        dsimp only at htail
        dsimp only
        by_cases hm : hasMarkerEntries es = true
        · rw [if_pos hm] at htail
          simp at htail
        · rw [if_neg hm] at htail
          rw [if_neg hm]
          exact ih p htail hfail

/-- C9: a directory-listing failure on any examined ancestor is
propagated by the Workspace Root Locator as a fatal error for the
invocation; in particular the locator then returns neither a root nor
the absent result, rather than treating the unlistable ancestor as
markerless and continuing. -/
theorem c9_listing_failure_propagates (fs : FNode) (d p : FPath)
    (h1 : p ∈ examined fs d) (h2 : readdir fs p = none) :
    findWorkspaceRoot fs d = .error () :=
  findRootUp_error_of_examined fs d.reverse p h1 h2

/-- C9, filesystem used by the witness: the starting directory a is a
directory whose listing fails (permission denied). -/
def fsC9W : FNode := .dir true [(str "a", .dir false [])]

/-- C9, witness: starting in the unlistable directory a, the locator
propagates the listing failure as an error. -/
theorem c9_witness : findWorkspaceRoot fsC9W [str "a"] = .error () :=
  c9_listing_failure_propagates fsC9W [str "a"] [str "a"] (by decide) rfl

/-- C10, filesystem of the scenario: a workspace rooted at w holding
a directory a with a file x. -/
def fsC10 : FNode :=
  .dir true [(str "w", .dir true [(str "package.json", .file),
    (str "a", .dir true [(str "x", .file)])])]

/-- C10, arguments of the scenario: move the directory w/a to
w/a/b/c, a destination inside the moved directory itself, whose
parent w/a/b does not exist yet. -/
def mvArgsC10 : MvArgs :=
  ⟨false, false, false, [[str "w", str "a"], [str "w", str "a", str "b", str "c"]]⟩

/-- C10: the move error path can mutate the filesystem.  In this
invocation both endpoints pass containment and the destination parent
w/a/b does not exist, so the command issues mkdirSync for it before
renameSync; the rename then fails (the source is a proper ancestor of
the destination), the process exits nonzero, yet the directory
created for the destination remains: move failure is not atomic with
respect to the directory creation. -/
theorem c10_mv_mkdir_persists_on_failure :
    (mvMain fsC10 [str "w"] mvArgsC10).exitCode = 1 ∧
    lookup fsC10 [str "w", str "a", str "b"] = none ∧
    lookup (mvMain fsC10 [str "w"] mvArgsC10).fs [str "w", str "a", str "b"]
      = some (.dir true []) ∧
    (mvMain fsC10 [str "w"] mvArgsC10).events = [MEv.mkdirSync [str "w", str "a", str "b"]] ∧
    (mvMain fsC10 [str "w"] mvArgsC10).stderr
      = [.moveFailed [str "w", str "a"] [str "w", str "a", str "b", str "c"]] :=
  ⟨rfl, rfl, rfl, rfl, rfl⟩

end VsLocal
